import Mathlib

/-!
# Verification of the Expense Tracker ledger/aggregation core

A shallow embedding of `expensetracker.py` (a single-file Streamlit expense
tracker).  The session state (expense ledger, monthly budget, images), the
CSV import/export operations, the in-place date coercion performed by the
visualization page, the groupby aggregations and the monthly budget progress
computation are translated into executable Lean definitions, and the
specification's claims are settled against them.

Modelling conventions:
* currency amounts are rationals; every value a float `Amount` cell can
  hold is a decimal fraction, and `to_csv` renders it as the shortest
  exact decimal (Python float `repr`), which `read_csv` parses back
  unchanged;
* a DataFrame cell that pandas would hold as `NaN` (a missing value) is an
  `Option` `none`: `pd.read_csv` turns an empty `Category` or
  `Description` cell into `NaN` (distinct from the empty *string* the
  entry form can store), and `groupby` drops `NaN` keys while column sums
  still include those rows;
* a `Date` cell is either the raw text it was loaded with, or the result of
  `pd.to_datetime(..., errors="coerce")`: a parsed calendar date or the
  `NaT` marker (`DateCell.dat none`);
* the session tracks `df.columns` alongside the rows: `to_csv` writes that
  column list as the header, and a successful import replaces it with the
  uploaded file's header (which may be permuted or extended — values of
  non-schema columns are not modelled further);
* a CSV file is a header row plus data rows of cell strings (the
  comma-quoting layer handled by pandas is abstracted away).
-/

namespace ExpenseTracker

/-! ## Calendar dates and date parsing (`pd.to_datetime(..., errors="coerce")`) -/

/-- A calendar date, as produced by coercing a `Date` cell. -/
structure Date where
  year : Nat
  month : Nat
  day : Nat
deriving DecidableEq, Repr

/-- Gregorian leap-year test. -/
def isLeapYear (y : Nat) : Bool :=
  y % 4 == 0 && (y % 100 != 0 || y % 400 == 0)

/-- Number of days in a month, used to validate parsed dates. -/
def daysInMonth (y m : Nat) : Nat :=
  if m == 2 then (if isLeapYear y then 29 else 28)
  else if m == 4 || m == 6 || m == 9 || m == 11 then 30
  else 31

/-- Value of a decimal digit character (`'0'` ↦ 0, …, `'9'` ↦ 9). -/
def charVal (c : Char) : Nat := c.toNat - 48

/-- Parse a nonempty all-digit character list as a natural number. -/
def parseNatChars (cs : List Char) : Option Nat :=
  if cs ≠ [] ∧ cs.all Char.isDigit then
    some (Nat.ofDigits 10 ((cs.map charVal).reverse))
  else none

/-- Little-endian decimal digits of `n`, with an explicit fuel bound
(`fuel ≥ n` suffices). -/
def natDigitsRev (fuel n : Nat) : List Nat :=
  match fuel with
  | 0 => []
  | fuel + 1 => if n = 0 then [] else n % 10 :: natDigitsRev fuel (n / 10)

/-- Decimal rendering of a natural number (digit characters, most
significant first; `0` renders as `"0"`). -/
def printNat (n : Nat) : String :=
  if n = 0 then "0" else String.mk (((natDigitsRev n n).map Nat.digitChar).reverse)

/-- Two-digit zero-padded rendering, for month/day and cent fields. -/
def pad2 (m : Nat) : String :=
  String.mk [Nat.digitChar (m / 10), Nat.digitChar (m % 10)]

/-- Four-digit zero-padded rendering, for the year field. -/
def pad4 (y : Nat) : String :=
  String.mk [Nat.digitChar (y / 1000 % 10), Nat.digitChar (y / 100 % 10),
             Nat.digitChar (y / 10 % 10), Nat.digitChar (y % 10)]

/-- `YYYY-MM-DD` rendering of a date, the form `to_csv` writes for a
coerced date cell. -/
def printDate (d : Date) : String :=
  pad4 d.year ++ "-" ++ pad2 d.month ++ "-" ++ pad2 d.day

/-- Split a character list on `'-'` separators. -/
def splitDashes (cs : List Char) : List (List Char) :=
  match cs with
  | [] => [[]]
  | c :: rest =>
    if c = '-' then [] :: splitDashes rest
    else
      match splitDashes rest with
      | g :: gs => (c :: g) :: gs
      | [] => [[c]]

/-- Strict `YYYY-MM-DD` date parsing with calendar validation; any other
text yields `none`, the unparseable (`NaT`) marker.  This embeds the date
handling of `pd.to_datetime(..., errors="coerce")` for the interchange
format's date syntax. -/
def parseDate (s : String) : Option Date :=
  match splitDashes s.toList with
  | [ys, ms, ds] =>
    if ys.length = 4 ∧ ms.length = 2 ∧ ds.length = 2 then
      match parseNatChars ys, parseNatChars ms, parseNatChars ds with
      | some y, some m, some d =>
        if 1 ≤ m ∧ m ≤ 12 ∧ 1 ≤ d ∧ d ≤ daysInMonth y m then some ⟨y, m, d⟩ else none
      | _, _, _ => none
    else none
  | _ => none

/-! ## Decimal amount rendering and parsing

`to_csv` writes the float `Amount` column as Python's `repr` text — the
shortest decimal that denotes the value exactly (`7.8` → `"7.8"`,
`15.75` → `"15.75"`, `5.0` → `"5.0"`) — and `read_csv` parses it back, so
serialization round-trips every amount.  In this embedding amounts are
rationals; every value a float cell can hold is a decimal fraction
(`∃ j, (q * 10^j).den = 1`), and the printer below renders exactly such
values with the least number of fractional digits (at least one, as
`repr` does for floats). -/

/-- Fuel-bounded search for the least number of times `q` must be
multiplied by 10 to become an integer. -/
def decExpAux : Nat → ℚ → Nat
  | 0, _ => 0
  | fuel + 1, q => if q.den = 1 then 0 else decExpAux fuel (q * 10) + 1

/-- Number of fractional decimal digits needed to write `q` exactly
(meaningful when `q` is a decimal fraction; the fuel `q.den` always
suffices then). -/
def decExp (q : ℚ) : Nat := decExpAux q.den q

/-- Exactly `k` decimal digit characters of `n` (mod `10^k`),
zero-padded, most significant first. -/
def padDigits : Nat → Nat → List Char
  | 0, _ => []
  | k + 1, n => padDigits k (n / 10) ++ [Nat.digitChar (n % 10)]

/-- Render an amount the way `repr` renders the float: sign, integer
part, point, and the least number of fractional digits (at least one)
that write the value exactly. -/
def printAmount (q : ℚ) : String :=
  let k := max 1 (decExp q)
  let n := (q * 10 ^ k).num.natAbs
  (if (q * 10 ^ k).num < 0 then "-" else "") ++
    printNat (n / 10 ^ k) ++ "." ++ String.mk (padDigits k (n % 10 ^ k))

/-- Parse an unsigned decimal numeral (integer part, optional point and
fraction part). -/
def parseUnsignedChars (cs : List Char) : Option ℚ :=
  let ip := cs.takeWhile (fun c => c != '.')
  match cs.dropWhile (fun c => c != '.') with
  | [] => (parseNatChars ip).map (fun n => (n : ℚ))
  | _ :: frac =>
    match parseNatChars ip, parseNatChars frac with
    | some a, some b => some ((a : ℚ) + (b : ℚ) / (10 : ℚ) ^ frac.length)
    | _, _ => none

/-- Parse a (possibly negative) decimal numeral, as `read_csv` does for a
numeric `Amount` cell. -/
def parseAmount (s : String) : Option ℚ :=
  match s.toList with
  | [] => none
  | c :: cs => if c = '-' then (parseUnsignedChars cs).map (fun q => -q)
               else parseUnsignedChars (c :: cs)

/-! ### Round-trip lemmas for the numeral printer/parser -/

theorem charVal_digitChar {d : Nat} (h : d < 10) : charVal (Nat.digitChar d) = d := by
  interval_cases d <;> rfl

theorem isDigit_digitChar {d : Nat} (h : d < 10) : (Nat.digitChar d).isDigit = true := by
  interval_cases d <;> rfl

theorem ne_dot_of_isDigit {c : Char} (h : c.isDigit = true) : c ≠ '.' := by
  intro he; subst he; exact absurd h (by decide)

theorem ne_dash_of_isDigit {c : Char} (h : c.isDigit = true) : c ≠ '-' := by
  intro he; subst he; exact absurd h (by decide)

theorem natDigitsRev_lt_ten (fuel : Nat) :
    ∀ n, ∀ d ∈ natDigitsRev fuel n, d < 10 := by
  induction fuel with
  | zero => intro n d hd; simp [natDigitsRev] at hd
  | succ fuel ih =>
    intro n d hd
    by_cases h0 : n = 0
    · simp [natDigitsRev, h0] at hd
    · simp only [natDigitsRev, h0, if_false] at hd
      rcases List.mem_cons.mp hd with h | h
      · subst h; exact Nat.mod_lt _ (by norm_num)
      · exact ih (n / 10) d h

theorem ofDigits_natDigitsRev (fuel : Nat) :
    ∀ n, n ≤ fuel → Nat.ofDigits 10 (natDigitsRev fuel n) = n := by
  induction fuel with
  | zero =>
    intro n hn
    have h0 : n = 0 := by omega
    subst h0; simp [natDigitsRev]
  | succ fuel ih =>
    intro n hn
    by_cases h0 : n = 0
    · subst h0; simp [natDigitsRev]
    · have hdiv : n / 10 ≤ fuel := by omega
      simp only [natDigitsRev, h0, if_false]
      rw [Nat.ofDigits_cons, ih (n / 10) hdiv]
      omega

theorem natDigitsRev_ne_nil {fuel n : Nat} (h0 : n ≠ 0) (hf : 1 ≤ fuel) :
    natDigitsRev fuel n ≠ [] := by
  match fuel, hf with
  | fuel + 1, _ => simp [natDigitsRev, h0]

theorem printNat_toList_all_isDigit (n : Nat) :
    ∀ c ∈ (printNat n).toList, c.isDigit = true := by
  intro c hc
  unfold printNat at hc
  by_cases h0 : n = 0
  · simp [h0] at hc; subst hc; decide
  · simp [h0, String.toList] at hc
    rcases hc with ⟨d, hd, rfl⟩
    exact isDigit_digitChar (natDigitsRev_lt_ten n n d hd)

theorem printNat_toList_ne_nil (n : Nat) : (printNat n).toList ≠ [] := by
  unfold printNat
  by_cases h0 : n = 0
  · simp [h0, String.toList]
  · simp [h0, String.toList]
    exact natDigitsRev_ne_nil h0 (by omega)

theorem parseNatChars_printNat (n : Nat) :
    parseNatChars (printNat n).toList = some n := by
  by_cases h0 : n = 0
  · subst h0; rfl
  · unfold parseNatChars
    rw [if_pos]
    · congr 1
      have hlist : (printNat n).toList = ((natDigitsRev n n).map Nat.digitChar).reverse := by
        unfold printNat; simp [h0, String.toList]
      rw [hlist, List.map_reverse, List.reverse_reverse, List.map_map]
      have hmap : (natDigitsRev n n).map (charVal ∘ Nat.digitChar) =
          (natDigitsRev n n).map id := by
        apply List.map_congr_left
        intro d hd
        simp [charVal_digitChar (natDigitsRev_lt_ten n n d hd)]
      rw [hmap, List.map_id, ofDigits_natDigitsRev n n (le_refl n)]
    · refine ⟨printNat_toList_ne_nil n, ?_⟩
      rw [List.all_eq_true]
      intro c hc
      exact printNat_toList_all_isDigit n c hc

theorem parseNatChars_pad2 {m : Nat} (hm : m < 100) :
    parseNatChars (pad2 m).toList = some m := by
  have h1 : m / 10 < 10 := by omega
  have h2 : m % 10 < 10 := by omega
  unfold parseNatChars pad2
  rw [if_pos]
  · congr 1
    simp only [String.toList, List.map_cons, List.map_nil, List.reverse_cons,
      List.reverse_nil]
    rw [charVal_digitChar h1, charVal_digitChar h2]
    simp [Nat.ofDigits_cons, Nat.ofDigits_nil]
    omega
  · constructor
    · simp [String.toList]
    · simp [String.toList, List.all_cons, isDigit_digitChar h1, isDigit_digitChar h2]

theorem pad2_length (m : Nat) : (pad2 m).toList.length = 2 := rfl

theorem takeWhile_digits_append (xs ys : List Char)
    (hx : ∀ c ∈ xs, c.isDigit = true) :
    (xs ++ '.' :: ys).takeWhile (fun c => c != '.') = xs ∧
    (xs ++ '.' :: ys).dropWhile (fun c => c != '.') = '.' :: ys := by
  induction xs with
  | nil => constructor <;> simp [List.takeWhile, List.dropWhile]
  | cons a xs ih =>
    have ha : a ≠ '.' := ne_dot_of_isDigit (hx a (List.mem_cons_self a xs))
    have ha' : (a != '.') = true := by simpa using ha
    have ih' := ih (fun c hc => hx c (List.mem_cons_of_mem a hc))
    constructor
    · simp only [List.cons_append, List.takeWhile_cons, ha', if_true, ih'.1]
    · simp only [List.cons_append, List.dropWhile_cons, ha', if_true, ih'.2]

theorem padDigits_all_isDigit (k : Nat) :
    ∀ n, ∀ c ∈ padDigits k n, c.isDigit = true := by
  induction k with
  | zero => intro n c hc; simp [padDigits] at hc
  | succ k ih =>
    intro n c hc
    simp only [padDigits] at hc
    rcases List.mem_append.mp hc with h | h
    · exact ih (n / 10) c h
    · rcases List.mem_singleton.mp h with rfl
      exact isDigit_digitChar (Nat.mod_lt _ (by norm_num))

theorem padDigits_length (k : Nat) : ∀ n, (padDigits k n).length = k := by
  induction k with
  | zero => intro n; rfl
  | succ k ih => intro n; simp [padDigits, ih]

theorem ofDigits_padDigits (k : Nat) :
    ∀ n, n < 10 ^ k →
      Nat.ofDigits 10 ((padDigits k n).map charVal).reverse = n := by
  induction k with
  | zero =>
    intro n hn
    have h0 : n = 0 := by simpa using hn
    subst h0; rfl
  | succ k ih =>
    intro n hn
    have hdiv : n / 10 < 10 ^ k := by
      rw [Nat.div_lt_iff_lt_mul (by norm_num)]
      calc n < 10 ^ (k + 1) := hn
      _ = 10 ^ k * 10 := by ring
    simp only [padDigits, List.map_append, List.reverse_append, List.map_cons,
      List.map_nil, List.reverse_cons, List.reverse_nil, List.nil_append,
      List.cons_append, List.singleton_append]
    rw [charVal_digitChar (Nat.mod_lt _ (by norm_num)), Nat.ofDigits_cons,
      ih (n / 10) hdiv]
    omega

theorem parseNatChars_padDigits {k n : Nat} (hn : n < 10 ^ k) (hk : 1 ≤ k) :
    parseNatChars (padDigits k n) = some n := by
  unfold parseNatChars
  rw [if_pos]
  · congr 1
    exact ofDigits_padDigits k n hn
  · constructor
    · intro hnil
      have := padDigits_length k n
      rw [hnil] at this
      simp at this
      omega
    · rw [List.all_eq_true]
      intro c hc
      exact padDigits_all_isDigit k n c hc

theorem parseUnsignedChars_print (a k m : Nat) (hm : m < 10 ^ k) (hk : 1 ≤ k) :
    parseUnsignedChars ((printNat a).toList ++ '.' :: padDigits k m) =
      some ((a : ℚ) + (m : ℚ) / (10 : ℚ) ^ k) := by
  have htd := takeWhile_digits_append (printNat a).toList (padDigits k m)
    (printNat_toList_all_isDigit a)
  unfold parseUnsignedChars
  rw [htd.2, htd.1]
  simp only [parseNatChars_printNat, parseNatChars_padDigits hm hk, padDigits_length]

theorem den_one_mul_ten {x : ℚ} (h : x.den = 1) : (x * 10).den = 1 := by
  have hx : x = ((x.num : ℤ) : ℚ) := by
    conv_lhs => rw [← Rat.num_div_den x]
    rw [h]; simp
  rw [hx]
  have : ((x.num : ℤ) : ℚ) * 10 = ((x.num * 10 : ℤ) : ℚ) := by push_cast; ring
  rw [this, Rat.den_intCast]

theorem den_one_pow_step (q : ℚ) (j : Nat) (h : (q * 10 ^ j).den = 1) :
    ∀ i, (q * 10 ^ (j + i)).den = 1 := by
  intro i
  induction i with
  | zero => simpa using h
  | succ i ih =>
    have : q * 10 ^ (j + (i + 1)) = (q * 10 ^ (j + i)) * 10 := by ring
    rw [this]
    exact den_one_mul_ten ih

theorem decExpAux_den (fuel : Nat) :
    ∀ q : ℚ, (∃ j, j ≤ fuel ∧ (q * 10 ^ j).den = 1) →
      (q * 10 ^ decExpAux fuel q).den = 1 := by
  induction fuel with
  | zero =>
    intro q ⟨j, hj, hden⟩
    have h0 : j = 0 := by omega
    subst h0
    simpa [decExpAux] using hden
  | succ fuel ih =>
    intro q ⟨j, hj, hden⟩
    by_cases h1 : q.den = 1
    · simp [decExpAux, h1]
    · have hj0 : j ≠ 0 := by
        rintro rfl
        simp at hden
        exact h1 hden
      obtain ⟨j', rfl⟩ : ∃ j', j = j' + 1 := ⟨j - 1, by omega⟩
      have hq10 : ((q * 10) * 10 ^ j').den = 1 := by
        have : (q * 10) * 10 ^ j' = q * 10 ^ (j' + 1) := by ring
        rw [this]
        exact hden
      have := ih (q * 10) ⟨j', by omega, hq10⟩
      simp only [decExpAux, h1, if_false]
      have heq : q * 10 ^ (decExpAux fuel (q * 10) + 1) =
          (q * 10) * 10 ^ decExpAux fuel (q * 10) := by ring
      rw [heq]
      exact this

/-- For a decimal fraction `q` — as every Python float is — printing with
`max 1 (decExp q)` fractional digits is exact. -/
theorem den_printExp (q : ℚ) (hq : ∃ j, j ≤ q.den ∧ (q * 10 ^ j).den = 1) :
    (q * 10 ^ max 1 (decExp q)).den = 1 := by
  have hbase : (q * 10 ^ decExp q).den = 1 := decExpAux_den q.den q hq
  rcases le_or_lt 1 (decExp q) with h1 | h1
  · rwa [Nat.max_eq_right h1]
  · have h0 : decExp q = 0 := by omega
    rw [h0] at hbase
    have := den_one_pow_step q 0 hbase 1
    simpa [h0] using this

/-- Exactness of the printer/parser pair on decimal-fraction amounts
(`read_csv ∘ to_csv` is the identity on float cells). -/
theorem parseAmount_printAmount (q : ℚ)
    (hq : ∃ j, j ≤ q.den ∧ (q * 10 ^ j).den = 1) :
    parseAmount (printAmount q) = some q := by
  obtain ⟨k, hk⟩ : ∃ k : Nat, max 1 (decExp q) = k := ⟨_, rfl⟩
  have hk1 : 1 ≤ k := by omega
  have h : (q * 10 ^ k).den = 1 := by
    rw [← hk]; exact den_printExp q hq
  obtain ⟨c, hc⟩ : ∃ c : ℤ, (q * 10 ^ k).num = c := ⟨_, rfl⟩
  obtain ⟨n, hn⟩ : ∃ n : Nat, c.natAbs = n := ⟨_, rfl⟩
  have hpow : (0 : ℚ) < (10 : ℚ) ^ k := by positivity
  have hq10 : ((c : ℚ)) = q * 10 ^ k := by
    conv_rhs => rw [← Rat.num_div_den (q * 10 ^ k)]
    rw [h, hc]; simp
  have hqval : q = (c : ℚ) / 10 ^ k := by
    rw [hq10]
    field_simp
  have hmlt : n % 10 ^ k < 10 ^ k := Nat.mod_lt _ (by positivity)
  have hsplit : ((n / 10 ^ k : Nat) : ℚ) + ((n % 10 ^ k : Nat) : ℚ) / (10 : ℚ) ^ k =
      (n : ℚ) / (10 : ℚ) ^ k := by
    have h1 : ((10 ^ k * (n / 10 ^ k) + n % 10 ^ k : Nat) : ℚ) = (n : ℚ) := by
      exact_mod_cast congrArg (fun t : Nat => (t : ℚ)) (Nat.div_add_mod n (10 ^ k))
    push_cast at h1
    field_simp
    linarith
  have hprint : printAmount q =
      (if c < 0 then "-" else "") ++ printNat (n / 10 ^ k) ++ "." ++
        String.mk (padDigits k (n % 10 ^ k)) := by
    simp only [printAmount, hk, hc, hn]
  by_cases hneg : c < 0
  · have htl : (printAmount q).toList =
        '-' :: ((printNat (n / 10 ^ k)).toList ++ '.' :: padDigits k (n % 10 ^ k)) := by
      rw [hprint, if_pos hneg]
      simp [String.toList, String.data_append]
    have hcq : (c : ℚ) = -(n : ℚ) := by
      have hz : (n : ℤ) = -c := by omega
      have : ((n : ℤ) : ℚ) = ((-c : ℤ) : ℚ) := congrArg _ hz
      push_cast at this
      linarith
    simp only [parseAmount, htl]
    rw [if_pos trivial, parseUnsignedChars_print (n / 10 ^ k) k (n % 10 ^ k) hmlt hk1]
    simp only [Option.map_some']
    congr 1
    rw [hsplit, hqval, hcq]
    ring
  · have htl : (printAmount q).toList =
        (printNat (n / 10 ^ k)).toList ++ '.' :: padDigits k (n % 10 ^ k) := by
      rw [hprint, if_neg hneg]
      simp [String.toList, String.data_append]
    obtain ⟨d, rest, hd⟩ : ∃ d rest, (printNat (n / 10 ^ k)).toList = d :: rest := by
      rcases he : (printNat (n / 10 ^ k)).toList with _ | ⟨d, rest⟩
      · exact absurd he (printNat_toList_ne_nil _)
      · exact ⟨d, rest, rfl⟩
    have hddig : d.isDigit = true :=
      printNat_toList_all_isDigit (n / 10 ^ k) d
        (by rw [hd]; exact List.mem_cons_self d rest)
    have hcq : (c : ℚ) = (n : ℚ) := by
      have hz : (n : ℤ) = c := by omega
      exact_mod_cast (congrArg (fun t : ℤ => (t : ℚ)) hz).symm
    simp only [parseAmount, htl, hd, List.cons_append]
    rw [if_neg (ne_dash_of_isDigit hddig), ← List.cons_append, ← hd,
      parseUnsignedChars_print (n / 10 ^ k) k (n % 10 ^ k) hmlt hk1]
    congr 1
    rw [hsplit, hqval, hcq]

/-! ## Data model: records, ledger, session state

The DataFrame `st.session_state.expenses` with columns
`Date, Category, Amount, Description` is modelled as a list of records.
A `Date` cell is either raw text (as loaded by `read_csv` or stored by
`load_sample_data`) or a coerced value (after
`pd.to_datetime(..., errors="coerce")`: a date, or `none` for `NaT`).
A `Category` cell is `none` when the CSV cell was empty (pandas `NaN`). -/

/-- A `Date` column cell: raw text, or a coerced datetime value
(`dat none` is the `NaT` marker). -/
inductive DateCell where
  | str (s : String)
  | dat (d : Option Date)
deriving DecidableEq, Repr

/-- One row of the expense DataFrame, projected onto the four schema
columns.  `category` and `description` cells are `none` when the
DataFrame holds `NaN` there (as `read_csv` produces for an empty cell);
`some ""` is the distinct empty *string*, which the entry form's
`text_area` can put in a `Description` cell. -/
structure ExpenseRecord where
  date : DateCell
  category : Option String
  amount : ℚ
  description : Option String
deriving DecidableEq, Repr

/-- The required import schema, which is also the canonical column order
of every DataFrame the program itself builds (lines 105, 114-115, 175,
180-185). -/
def requiredCols : List String := ["Date", "Category", "Amount", "Description"]

/-- The whole Streamlit session state touched by the expense logic:
the expense DataFrame — its column list (`df.columns`, which `to_csv`
writes as the header and which an import can permute or extend) and its
rows projected onto the four schema columns — plus the monthly budget and
the two configurable images (lines 75/81, 95/99, 104-107 of the source).
Values of non-schema columns are not modelled (the spec scopes extra
columns as "preserved but not modeled further"). -/
structure SessionState where
  expenses : List ExpenseRecord
  expense_cols : List String
  monthly_budget : ℚ
  profile_image : String
  banner_image : String
deriving DecidableEq, Repr

/-- Session-state defaults: empty four-column ledger, budget 1000.0 and
the two default image URLs. -/
def initialState : SessionState :=
  { expenses := []
    expense_cols := requiredCols
    monthly_budget := 1000
    profile_image := "https://upload.wikimedia.org/wikipedia/commons/5/50/Emoji_u1f600.svg"
    banner_image := "https://via.placeholder.com/800x200.png?text=Expense+Tracker" }

/-- `pd.to_datetime(cell, errors="coerce")` on a single cell: raw text is
parsed (invalid text becomes `NaT`), already-coerced cells are untouched. -/
def coerceCell : DateCell → DateCell
  | .str s => .dat (parseDate s)
  | .dat o => .dat o

/-- Coercing the whole `Date` column
(`pd.to_datetime(df["Date"], errors="coerce")`). -/
def coerceDates (l : List ExpenseRecord) : List ExpenseRecord :=
  l.map (fun r => { r with date := coerceCell r.date })

/-- The date value a cell contributes as a groupby key: `none` for `NaT`
or unparseable text. -/
def dateKey : DateCell → Option Date
  | .str s => parseDate s
  | .dat o => o

/-- Whether a cell holds a coerced datetime value. -/
def isDatCell : DateCell → Bool
  | .str _ => false
  | .dat _ => true

/-- `pd.api.types.is_datetime64_any_dtype(df["Date"])`: the column is a
datetime column when every cell holds a coerced datetime value. -/
def isDatetimeDtype (l : List ExpenseRecord) : Bool :=
  l.all (fun r => isDatCell r.date)

/-! ## Aggregation (`groupby(...)["Amount"].sum()`)

`groupSum` embeds `df.groupby(k)["Amount"].sum()`: rows whose key cell is
missing (`NaN`/`NaT`) are dropped (pandas' default `dropna=True`), amounts
are summed per key.  Group order is immaterial to the spec ("groups appear
in arbitrary order"); the time series is additionally sorted by date. -/

/-- Add an amount to a key's entry in an association list of partial sums
(appending a fresh entry when the key is new). -/
def addAmount {K : Type} [DecidableEq K] (k : K) (a : ℚ) :
    List (K × ℚ) → List (K × ℚ)
  | [] => [(k, a)]
  | (k', b) :: g => if k = k' then (k', b + a) :: g else (k', b) :: addAmount k a g

/-- Per-key amount sums of a keyed list, dropping missing keys. -/
def groupSum {K : Type} [DecidableEq K] : List (Option K × ℚ) → List (K × ℚ)
  | [] => []
  | (none, _) :: ps => groupSum ps
  | (some k, a) :: ps => addAmount k a (groupSum ps)

/-- Total of an aggregation result's values. -/
def sumValues {K : Type} (g : List (K × ℚ)) : ℚ := (g.map Prod.snd).sum

/-- The aggregated amount reported for key `k` (0 when the key has no
group). -/
def getSum {K : Type} [DecidableEq K] (g : List (K × ℚ)) (k : K) : ℚ :=
  ((g.filter (fun p => p.1 = k)).map Prod.snd).sum

/-- Numeric sort key of a calendar date. -/
def dateKeyNat (d : Date) : Nat := (d.year * 100 + d.month) * 100 + d.day

/-- Insertion step of the ascending-by-date sort (`sort_values("Date")`). -/
def insertByDate (p : Date × ℚ) : List (Date × ℚ) → List (Date × ℚ)
  | [] => [p]
  | q :: g => if dateKeyNat p.1 ≤ dateKeyNat q.1 then p :: q :: g
              else q :: insertByDate p g

/-- Ascending-by-date sort of the time-series groups. -/
def sortByDate (g : List (Date × ℚ)) : List (Date × ℚ) :=
  g.foldr insertByDate []

/-- `expenses.groupby("Category", as_index=False)["Amount"].sum()`
(source line 157). -/
def byCategory (l : List ExpenseRecord) : List (String × ℚ) :=
  groupSum (l.map (fun r => (r.category, r.amount)))

/-- `expenses.groupby("Date", as_index=False)["Amount"].sum().sort_values("Date")`
(source line 161). -/
def overTime (l : List ExpenseRecord) : List (Date × ℚ) :=
  sortByDate (groupSum (l.map (fun r => (dateKey r.date, r.amount))))

/-- `expenses["Amount"].sum()` (source line 212). -/
def totalsSum (l : List ExpenseRecord) : ℚ := (l.map (fun r => r.amount)).sum

/-! ## Monthly budget progress (source lines 222-234) -/

/-- The row filter `(df["Date"].dt.month == current_month) & (df["Date"].dt.year == current_year)`;
a `NaT` date matches no month. -/
def inMonth (m y : Nat) (r : ExpenseRecord) : Bool :=
  match dateKey r.date with
  | some d => d.month == m && d.year == y
  | none => false

/-- Sum of amounts whose coerced date falls in month `m` of year `y`
(the current month/year are parameters standing for
`pd.Timestamp.now()`). -/
def monthlyExpensesSum (l : List ExpenseRecord) (m y : Nat) : ℚ :=
  if l.isEmpty then 0
  else totalsSum ((coerceDates l).filter (inMonth m y))

/-- The value handed to `st.progress`:
`progress = monthly / budget if budget > 0 else 0`, then
`progress = progress if progress <= 1 else 1`. -/
def progressValue (l : List ExpenseRecord) (budget : ℚ) (m y : Nat) : ℚ :=
  let p := if budget > 0 then monthlyExpensesSum l m y / budget else 0
  if p ≤ 1 then p else 1

/-! ## CSV interchange and the record operations -/

/-- A parsed tabular file: header row plus data rows of cell strings. -/
structure CSVFile where
  header : List String
  rows : List (List String)
deriving DecidableEq, Repr

/-- Cell text of a `Date` cell on export: raw text verbatim, coerced dates
as `YYYY-MM-DD`, `NaT` as the empty cell. -/
def dateCellToString : DateCell → String
  | .str s => s
  | .dat (some d) => printDate d
  | .dat none => ""

/-- Cell text of a `Category`/`Description` cell on export: a missing
value (`NaN`) is written as an empty cell, text verbatim. -/
def textCellToString : Option String → String
  | none => ""
  | some c => c

/-- The cell a record contributes under column `c`.  A non-schema column
(only reachable by importing a CSV with extra columns; its values are not
modelled) yields an empty cell. -/
def cellOf (r : ExpenseRecord) (c : String) : String :=
  if c = "Date" then dateCellToString r.date
  else if c = "Category" then textCellToString r.category
  else if c = "Amount" then printAmount r.amount
  else if c = "Description" then textCellToString r.description
  else ""

/-- Serialize one record as one CSV row under the DataFrame's own column
order (`to_csv` writes `df.columns` order). -/
def recordToRowIn (cols : List String) (r : ExpenseRecord) : List String :=
  cols.map (cellOf r)

/-- Serialization of one record in the canonical schema order
`Date, Category, Amount, Description`. -/
def recordToRow (r : ExpenseRecord) : List String :=
  [dateCellToString r.date, textCellToString r.category,
   printAmount r.amount, textCellToString r.description]

theorem recordToRowIn_requiredCols (r : ExpenseRecord) :
    recordToRowIn requiredCols r = recordToRow r := rfl

/-- `df.to_csv(index=False)`: the header row is `df.columns` (canonical
only when the DataFrame's columns are), then one row per record. -/
def exportCSV (cols : List String) (l : List ExpenseRecord) : CSVFile :=
  ⟨cols, l.map (recordToRowIn cols)⟩

/-- The cell of `row` under column `c` of `header` (empty when absent). -/
def colCell (header row : List String) (c : String) : String :=
  row.getD (header.indexOf c) ""

/-- Decode one CSV row into a record: the `Date` cell stays text
(`read_csv` does not parse dates), an empty `Category` or `Description`
cell becomes a missing value (`NaN`), the `Amount` cell is parsed as a
decimal. -/
def rowToRecord (header row : List String) : ExpenseRecord :=
  { date := .str (colCell header row "Date")
    category := let c := colCell header row "Category"
                if c = "" then none else some c
    amount := (parseAmount (colCell header row "Amount")).getD 0
    description := let d := colCell header row "Description"
                   if d = "" then none else some d }

/-- All records of a parsed CSV file. -/
def parseRows (f : CSVFile) : List ExpenseRecord :=
  f.rows.map (rowToRecord f.header)

/-- Outcome reported by the import operation: the success banner, or the
error naming the required column set (source line 128 reports
"CSV file missing required columns: Date, Category, Amount, Description"). -/
inductive ImportOutcome where
  | success
  | schemaError (named : List String)
deriving DecidableEq, Repr

/-- `load_expenses_from_file` (source lines 118-128): replace the whole
DataFrame — rows *and* column list, `st.session_state.expenses = df` —
when the four required columns are all present (a subset check: permuted
or extra columns are accepted and kept), otherwise report the error and
leave the session state untouched. -/
def load_expenses_from_file (s : SessionState) (f : CSVFile) :
    SessionState × ImportOutcome :=
  if _h : ∀ c ∈ requiredCols, c ∈ f.header then
    ({ s with expenses := parseRows f, expense_cols := f.header }, .success)
  else
    (s, .schemaError requiredCols)

/-- Outcome of the save / download operations. -/
inductive SaveOutcome where
  | wrote (f : CSVFile)
  | warnedEmpty
deriving DecidableEq, Repr

/-- The header of a written CSV, when one was written. -/
def SaveOutcome.headerOf : SaveOutcome → Option (List String)
  | .wrote f => some f.header
  | .warnedEmpty => none

/-- `save_expenses_to_file` (source lines 130-136): write the CSV when
records exist, otherwise a warning; the session state is untouched either
way. -/
def save_expenses_to_file (s : SessionState) : SessionState × SaveOutcome :=
  if s.expenses.isEmpty then (s, .warnedEmpty)
  else (s, .wrote (exportCSV s.expense_cols s.expenses))

/-- `download_expenses` (source lines 138-144): same emptiness check, the
CSV is offered as a download. -/
def download_expenses (s : SessionState) : SessionState × SaveOutcome :=
  if s.expenses.isEmpty then (s, .warnedEmpty)
  else (s, .wrote (exportCSV s.expense_cols s.expenses))

/-- `add_expense` (source lines 112-116): append one record (the new row
is built with the existing `df.columns`, so the column list is
unchanged). -/
def add_expense (s : SessionState) (r : ExpenseRecord) : SessionState :=
  { s with expenses := s.expenses ++ [r] }

/-- `reset_data` (source lines 173-176): replace the DataFrame with the
fresh empty four-column table (canonical columns). -/
def reset_data (s : SessionState) : SessionState :=
  { s with expenses := [], expense_cols := requiredCols }

/-- The three-row fixture of `load_sample_data` (source lines 178-187). -/
def sampleExpenses : List ExpenseRecord :=
  [ ⟨.str "2025-01-01", some "Food", (15.75 : ℚ), some "Breakfast"⟩,
    ⟨.str "2025-01-02", some "Transport", (7.80 : ℚ), some "Bus fare"⟩,
    ⟨.str "2025-01-03", some "Entertainment", (22.50 : ℚ), some "Movie ticket"⟩ ]

/-- `load_sample_data` (source lines 178-187): a freshly constructed
DataFrame with the canonical columns. -/
def load_sample_data (s : SessionState) : SessionState :=
  { s with expenses := sampleExpenses, expense_cols := requiredCols }

/-- The charts computed by the visualization page. -/
structure Charts where
  catSummary : List (String × ℚ)
  timeSummary : List (Date × ℚ)
deriving DecidableEq, Repr

/-- `show_visualizations` (source lines 146-171): warn and stop on an
empty ledger; otherwise coerce the `Date` column **in place in the session
state** when it is not already a datetime column (lines 153-154), then
build both charts from the (coerced) session ledger. -/
def show_visualizations (s : SessionState) : SessionState × Option Charts :=
  if s.expenses.isEmpty then (s, none)
  else
    let l := if isDatetimeDtype s.expenses then s.expenses else coerceDates s.expenses
    ({ s with expenses := l }, some ⟨byCategory l, overTime l⟩)

/-! ## Connectivity probe (`check_internet`, source lines 54-62)

`requests.get("https://www.google.com", timeout=3)` either returns, or
raises one of the `requests` exceptions; `ConnectTimeout` subclasses
`requests.ConnectionError`, `ReadTimeout` does not.  The `try/except`
catches exactly the `ConnectionError` subtree. -/

/-- Possible outcomes of the network request. -/
inductive ProbeOutcome where
  | responded
  | connectionFailed
  | connectTimedOut
  | readTimedOut
deriving DecidableEq, Repr

/-- The `requests` exceptions relevant to the probe. -/
inductive RequestExc where
  | connectionError
  | connectTimeout
  | readTimeout
deriving DecidableEq, Repr

/-- The exception `requests.get` raises for each probe outcome. -/
def raisedBy : ProbeOutcome → Option RequestExc
  | .responded => none
  | .connectionFailed => some .connectionError
  | .connectTimedOut => some .connectTimeout
  | .readTimedOut => some .readTimeout

/-- Membership in the `requests.ConnectionError` class hierarchy:
`ConnectTimeout` derives from both `ConnectionError` and `Timeout`;
`ReadTimeout` derives from `Timeout` only. -/
def isConnectionError : RequestExc → Bool
  | .connectionError => true
  | .connectTimeout => true
  | .readTimeout => false

/-- `check_internet` (source lines 54-59): `.ok b` models a normal boolean
return, `.error e` an exception escaping the function (only
`requests.ConnectionError` is caught). -/
def check_internet (o : ProbeOutcome) : Except RequestExc Bool :=
  match raisedBy o with
  | none => .ok true
  | some e => if isConnectionError e then .ok false else .error e

/-! ## Helper lemmas about the aggregation machinery -/

theorem filter_map_swap {α β : Type} (f : α → β) (p : β → Bool) (l : List α) :
    (l.map f).filter p = (l.filter (fun x => p (f x))).map f := by
  induction l with
  | nil => rfl
  | cons a l ih => by_cases h : p (f a) <;> simp [h, ih]

theorem sumValues_addAmount {K : Type} [DecidableEq K] (k : K) (a : ℚ)
    (g : List (K × ℚ)) : sumValues (addAmount k a g) = sumValues g + a := by
  induction g with
  | nil => simp [addAmount, sumValues]
  | cons q g ih =>
    rcases q with ⟨k', b⟩
    by_cases h : k = k'
    · simp [addAmount, h, sumValues]
      ring
    · simp [addAmount, h, sumValues] at ih ⊢
      rw [ih]
      ring

theorem sumValues_groupSum {K : Type} [DecidableEq K] (ps : List (Option K × ℚ)) :
    sumValues (groupSum ps) =
      ((ps.filter (fun q => q.1.isSome)).map Prod.snd).sum := by
  induction ps with
  | nil => rfl
  | cons q ps ih =>
    rcases q with ⟨ok, a⟩
    cases ok with
    | none => simpa [groupSum] using ih
    | some k =>
      simp only [groupSum, sumValues_addAmount, ih, List.filter_cons]
      simp
      ring

theorem getSum_addAmount {K : Type} [DecidableEq K] (k' k : K) (a : ℚ)
    (g : List (K × ℚ)) :
    getSum (addAmount k' a g) k = getSum g k + (if k' = k then a else 0) := by
  induction g with
  | nil =>
    by_cases h : k' = k <;> simp [addAmount, getSum, h]
  | cons q g ih =>
    rcases q with ⟨k'', b⟩
    by_cases h : k' = k''
    · subst h
      by_cases hk : k' = k
      · subst hk
        simp [addAmount, getSum, List.filter_cons]
        ring
      · simp [addAmount, getSum, List.filter_cons, hk]
    · simp only [getSum] at ih ⊢
      by_cases hk : k'' = k
      · subst hk
        rw [if_neg h] at ih
        simp [addAmount, List.filter_cons, h, ih]
      · simp [addAmount, List.filter_cons, h, hk, ih]

theorem getSum_groupSum {K : Type} [DecidableEq K] (ps : List (Option K × ℚ)) (k : K) :
    getSum (groupSum ps) k =
      ((ps.filter (fun q => q.1 = some k)).map Prod.snd).sum := by
  induction ps with
  | nil => rfl
  | cons q ps ih =>
    rcases q with ⟨ok, a⟩
    cases ok with
    | none => simpa [groupSum, List.filter_cons] using ih
    | some k' =>
      by_cases h : k' = k
      · subst h
        simp [groupSum, getSum_addAmount, ih, List.filter_cons]
        ring
      · have h' : (some k' = some k) = False := by simp [h]
        simp [groupSum, getSum_addAmount, ih, List.filter_cons, h, h']

theorem groupSum_filter_isSome {K : Type} [DecidableEq K] (ps : List (Option K × ℚ)) :
    groupSum ps = groupSum (ps.filter (fun q => q.1.isSome)) := by
  induction ps with
  | nil => rfl
  | cons q ps ih =>
    rcases q with ⟨ok, a⟩
    cases ok with
    | none => simpa [groupSum, List.filter_cons] using ih
    | some k => simp [groupSum, List.filter_cons, ih]

/-! ## Helper lemmas about date coercion -/

theorem dateKey_coerceCell (c : DateCell) : dateKey (coerceCell c) = dateKey c := by
  cases c <;> rfl

theorem isDatCell_coerceCell (c : DateCell) : isDatCell (coerceCell c) = true := by
  cases c <;> rfl

theorem coerceCell_coerceCell (c : DateCell) : coerceCell (coerceCell c) = coerceCell c := by
  cases c <;> rfl

theorem isDatetimeDtype_coerceDates (l : List ExpenseRecord) :
    isDatetimeDtype (coerceDates l) = true := by
  simp only [isDatetimeDtype, coerceDates, List.all_map, List.all_eq_true]
  intro r _
  exact isDatCell_coerceCell r.date

theorem coerceDates_of_isDatetimeDtype {l : List ExpenseRecord}
    (h : isDatetimeDtype l = true) : coerceDates l = l := by
  simp only [isDatetimeDtype, List.all_eq_true] at h
  unfold coerceDates
  conv_rhs => rw [← List.map_id l]
  apply List.map_congr_left
  intro r hr
  have hd := h r hr
  rcases r with ⟨dc, cat, amt, desc⟩
  cases dc with
  | str s => simp [isDatCell] at hd
  | dat o => rfl

theorem map_dateKey_amount_coerceDates (l : List ExpenseRecord) :
    (coerceDates l).map (fun r => (dateKey r.date, r.amount)) =
      l.map (fun r => (dateKey r.date, r.amount)) := by
  unfold coerceDates
  rw [List.map_map]
  apply List.map_congr_left
  intro r _
  simp [Function.comp, dateKey_coerceCell]

/-! ## Claim theorems -/

/-- C1: for every prior session state and every import file whose parsed
columns miss at least one of the four required columns, the import fails
(the ledger and the whole session state are exactly what they were before)
and the reported error names a column set containing every missing
required column. -/
theorem import_atomicity (s : SessionState) (f : CSVFile) (c : String)
    (hc : c ∈ requiredCols) (hmiss : c ∉ f.header) :
    (load_expenses_from_file s f).1 = s ∧
    (load_expenses_from_file s f).2 = .schemaError requiredCols ∧
    (∀ c' ∈ requiredCols, c' ∉ f.header → c' ∈ requiredCols) := by
  have hguard : ¬ ∀ x ∈ requiredCols, x ∈ f.header := fun h => hmiss (h c hc)
  refine ⟨?_, ?_, fun c' hc' _ => hc'⟩ <;>
    simp [load_expenses_from_file, hguard]

/-- Witness for C1: importing a file with columns `Date, Category, Amount`
(no `Description`) over the initial session leaves the session unchanged
and reports the schema error. -/
theorem import_atomicity_witness :
    ("Description" ∈ requiredCols ∧
       "Description" ∉ (⟨["Date", "Category", "Amount"], []⟩ : CSVFile).header) ∧
    (load_expenses_from_file initialState ⟨["Date", "Category", "Amount"], []⟩).1 =
        initialState ∧
    (load_expenses_from_file initialState ⟨["Date", "Category", "Amount"], []⟩).2 =
        ImportOutcome.schemaError requiredCols :=
  ⟨⟨by decide, by decide⟩,
    (import_atomicity initialState ⟨["Date", "Category", "Amount"], []⟩ "Description"
      (by decide) (by decide)).1,
    (import_atomicity initialState ⟨["Date", "Category", "Amount"], []⟩ "Description"
      (by decide) (by decide)).2.1⟩

/-- C2 (counterexample): a current-month record with a negative amount —
admitted without validation, e.g. by import — drives the progress value
below 0: the clamp `progress if progress <= 1 else 1` only caps the top of
the range, so the ratio handed to `st.progress` is not in [0, 1]. -/
theorem progress_clamping_counterexample :
    progressValue [⟨.str "2025-10-01", some "Food", (-50 : ℚ), none⟩] 100 10 2025 < 0 := by
  have hfilter : (coerceDates [⟨.str "2025-10-01", some "Food", (-50 : ℚ), none⟩]).filter
      (inMonth 10 2025) = [⟨.dat (some ⟨2025, 10, 1⟩), some "Food", (-50 : ℚ), none⟩] := by
    decide
  have hm : monthlyExpensesSum [⟨.str "2025-10-01", some "Food", (-50 : ℚ), none⟩] 10 2025
      = -50 := by
    simp [monthlyExpensesSum, hfilter, totalsSum]
  simp only [progressValue, hm]
  norm_num

/-- C2 (amended): whenever every amount in the Ledger is non-negative —
as is true of all form-entered records — the progress value lies in
[0, 1] for every Budget; in general only the upper clamp at 1 holds, and
negative (imported) amounts can drive the ratio below 0. -/
theorem progress_in_unit_interval (l : List ExpenseRecord) (budget : ℚ) (m y : Nat)
    (hpos : ∀ r ∈ l, 0 ≤ r.amount) :
    0 ≤ progressValue l budget m y ∧ progressValue l budget m y ≤ 1 := by
  have hm : 0 ≤ monthlyExpensesSum l m y := by
    unfold monthlyExpensesSum
    by_cases he : l.isEmpty
    · simp [he]
    · simp only [he, if_false, totalsSum]
      apply List.sum_nonneg
      intro x hx
      rcases List.mem_map.mp hx with ⟨r', hr', rfl⟩
      have hr'' := List.mem_of_mem_filter hr'
      rcases List.mem_map.mp hr'' with ⟨r0, hr0, rfl⟩
      exact hpos r0 hr0
  have hp : 0 ≤ (if budget > 0 then monthlyExpensesSum l m y / budget else 0) := by
    by_cases hb : budget > 0
    · simp only [hb, if_true]
      exact div_nonneg hm (le_of_lt hb)
    · simp [hb]
  unfold progressValue
  by_cases h1 : (if budget > 0 then monthlyExpensesSum l m y / budget else 0) ≤ 1
  · simp only [h1, if_true]
    exact ⟨hp, trivial⟩
  · simp only [h1, if_false]
    exact ⟨zero_le_one, le_refl 1⟩

/-- Witness for C2 (amended): the sample ledger has non-negative amounts,
and its progress value at budget 1000 in 2025-01 lies in [0, 1]. -/
theorem progress_in_unit_interval_witness :
    (∀ r ∈ sampleExpenses, 0 ≤ r.amount) ∧
    0 ≤ progressValue sampleExpenses 1000 1 2025 ∧
    progressValue sampleExpenses 1000 1 2025 ≤ 1 := by
  have hpos : ∀ r ∈ sampleExpenses, 0 ≤ r.amount := by
    intro r hr
    fin_cases hr <;> norm_num [sampleExpenses]
  exact ⟨hpos, progress_in_unit_interval sampleExpenses 1000 1 2025 hpos⟩

/-- C3: with Budget = 0 the progress computation takes the guarded branch
`monthly / budget if budget > 0 else 0` and yields 0 for every Ledger —
no division by zero is attempted. -/
theorem zero_budget_progress (l : List ExpenseRecord) (m y : Nat) :
    progressValue l 0 m y = 0 := by
  simp [progressValue]

/-- C4 (counterexample): a record whose `Category` cell is missing (an
empty CSV cell becomes `NaN` on import) is dropped by
`groupby("Category")` but still counted by `expenses["Amount"].sum()`, so
the by-category totals sum to 0 while the scalar total is 5. -/
theorem conservation_counterexample :
    sumValues (byCategory [⟨.str "2025-01-01", none, (5 : ℚ), none⟩]) ≠
      totalsSum [⟨.str "2025-01-01", none, (5 : ℚ), none⟩] := by
  have h1 : byCategory [⟨.str "2025-01-01", none, (5 : ℚ), none⟩] = [] := by decide
  have h2 : totalsSum [⟨.str "2025-01-01", none, (5 : ℚ), none⟩] = 5 := by
    simp [totalsSum]
  rw [h1, h2]
  simp [sumValues]

/-- C4 (amended): for every Ledger in which each record has a present
(non-missing) `Category` cell — in particular every ledger built from the
entry form or the sample fixture — the by-category group totals sum to
exactly the scalar amount total. -/
theorem aggregation_conservation (l : List ExpenseRecord)
    (hcat : ∀ r ∈ l, r.category ≠ none) :
    sumValues (byCategory l) = totalsSum l := by
  unfold byCategory
  rw [sumValues_groupSum, filter_map_swap]
  have hfull : l.filter (fun x => ((x.category, x.amount)).1.isSome) = l := by
    rw [List.filter_eq_self]
    intro r hr
    simpa [Option.isSome_iff_ne_none] using hcat r hr
  rw [hfull, List.map_map]
  rfl

/-- Witness for C4 (amended): on the sample ledger the three category
totals sum to the scalar total. -/
theorem aggregation_conservation_witness :
    (∀ r ∈ sampleExpenses, r.category ≠ none) ∧
    sumValues (byCategory sampleExpenses) = totalsSum sampleExpenses :=
  ⟨by decide, aggregation_conservation sampleExpenses (by decide)⟩

theorem isEmpty_coerceDates (l : List ExpenseRecord) :
    (coerceDates l).isEmpty = l.isEmpty := by
  cases l <;> rfl

theorem map_triple_coerceDates (l : List ExpenseRecord) :
    (coerceDates l).map (fun r => (r.category, r.amount, r.description)) =
      l.map (fun r => (r.category, r.amount, r.description)) := by
  unfold coerceDates
  rw [List.map_map]
  rfl

/-- C5 (counterexample): an imported record can have both an unparseable
date and a missing `Category` cell; it is dropped from the time series,
counted by the scalar total, but appears in *no* by-category group — its
amount is not included in the by-category totals as the claim states. -/
theorem date_scoping_counterexample :
    dateKey (DateCell.str "not-a-date") = none ∧
    byCategory [⟨.str "not-a-date", none, (5 : ℚ), some "x"⟩] = [] ∧
    sumValues (byCategory [⟨.str "not-a-date", none, (5 : ℚ), some "x"⟩]) = 0 ∧
    totalsSum [⟨.str "not-a-date", none, (5 : ℚ), some "x"⟩] = 5 := by
  refine ⟨by decide, by decide, ?_, ?_⟩
  · have h1 : byCategory [⟨.str "not-a-date", none, (5 : ℚ), some "x"⟩] = [] := by decide
    rw [h1]; rfl
  · simp [totalsSum]

/-- C5 (amended): a record whose date fails to parse is excluded from the
`overTime` view only — the view equals the view of the parseable-date
restriction of the Ledger — while its amount is still counted by
`totals` and, provided its `Category` cell is present, by the
`byCategory` total of its category. -/
theorem unparseable_date_scoping (l : List ExpenseRecord) (r : ExpenseRecord)
    (hr : r ∈ l) (_hbad : dateKey r.date = none) :
    overTime (coerceDates l) =
      overTime (coerceDates (l.filter (fun x => (dateKey x.date).isSome))) ∧
    totalsSum l = r.amount + totalsSum (l.erase r) ∧
    (∀ c, r.category = some c →
      getSum (byCategory l) c = r.amount + getSum (byCategory (l.erase r)) c) := by
  have hgetSum : ∀ (l' : List ExpenseRecord) (c : String),
      getSum (byCategory l') c =
        ((l'.filter (fun x => x.category = some c)).map (fun x => x.amount)).sum := by
    intro l' c
    unfold byCategory
    rw [getSum_groupSum, filter_map_swap, List.map_map]
    rfl
  refine ⟨?_, ?_, ?_⟩
  · unfold overTime
    congr 1
    rw [map_dateKey_amount_coerceDates, map_dateKey_amount_coerceDates,
      groupSum_filter_isSome, filter_map_swap]
  · have hperm : l.Perm (r :: l.erase r) := List.perm_cons_erase hr
    have hsum := (hperm.map (fun x => x.amount)).sum_eq
    simpa [totalsSum] using hsum
  · intro c hc
    have hperm : l.Perm (r :: l.erase r) := List.perm_cons_erase hr
    have hfp := hperm.filter (fun x => decide (x.category = some c))
    rw [List.filter_cons] at hfp
    have hcr : (decide (r.category = some c)) = true := by simp [hc]
    rw [hgetSum, hgetSum]
    rw [hcr] at hfp
    simp only [if_true] at hfp
    have := (hfp.map (fun x => x.amount)).sum_eq
    simpa using this

/-- Witness for C5 (amended): a ledger with a garbage-date `Food` record:
the time series equals that of the parseable restriction, while the
record's amount is counted by the scalar total and the `Food` group. -/
theorem unparseable_date_scoping_witness :
    ((⟨.str "garbage", some "Food", (5 : ℚ), none⟩ : ExpenseRecord) ∈
        ([⟨.str "garbage", some "Food", (5 : ℚ), none⟩,
          ⟨.str "2025-01-01", some "Food", (10 : ℚ), none⟩] : List ExpenseRecord)) ∧
    dateKey (DateCell.str "garbage") = none ∧
    (overTime (coerceDates [⟨.str "garbage", some "Food", (5 : ℚ), none⟩,
        ⟨.str "2025-01-01", some "Food", (10 : ℚ), none⟩]) =
      overTime (coerceDates (([⟨.str "garbage", some "Food", (5 : ℚ), none⟩,
        ⟨.str "2025-01-01", some "Food", (10 : ℚ), none⟩] :
          List ExpenseRecord).filter (fun x => (dateKey x.date).isSome))) ∧
    totalsSum [⟨.str "garbage", some "Food", (5 : ℚ), none⟩,
        ⟨.str "2025-01-01", some "Food", (10 : ℚ), none⟩] =
      (5 : ℚ) + totalsSum (([⟨.str "garbage", some "Food", (5 : ℚ), none⟩,
        ⟨.str "2025-01-01", some "Food", (10 : ℚ), none⟩] :
          List ExpenseRecord).erase ⟨.str "garbage", some "Food", (5 : ℚ), none⟩) ∧
    (∀ c, (some "Food" : Option String) = some c →
      getSum (byCategory [⟨.str "garbage", some "Food", (5 : ℚ), none⟩,
          ⟨.str "2025-01-01", some "Food", (10 : ℚ), none⟩]) c =
        (5 : ℚ) + getSum (byCategory (([⟨.str "garbage", some "Food", (5 : ℚ), none⟩,
          ⟨.str "2025-01-01", some "Food", (10 : ℚ), none⟩] :
            List ExpenseRecord).erase ⟨.str "garbage", some "Food", (5 : ℚ), none⟩)) c)) :=
  ⟨by decide, by decide,
    unparseable_date_scoping
      [⟨.str "garbage", some "Food", (5 : ℚ), none⟩,
       ⟨.str "2025-01-01", some "Food", (10 : ℚ), none⟩]
      ⟨.str "garbage", some "Food", (5 : ℚ), none⟩ (by decide) (by decide)⟩

/-- C6 (counterexample): computing the visualization views is *not*
mutation-free — on the freshly loaded sample ledger it rewrites the
session's `Date` column in place (text cells become coerced datetime
values), so the Ledger differs after the call. -/
theorem aggregator_purity_counterexample :
    (show_visualizations (load_sample_data initialState)).1 ≠
      load_sample_data initialState := by
  decide

/-- C6 (amended): the view computation is pure except that it coerces the
session's `Date` column in place: budget, images, and every record's
category/amount/description are unchanged, and the coercion is idempotent,
so the first call brings the ledger to a fixed point and repeated calls
(in any order, any number of times) change nothing further and return the
same views. -/
theorem visualization_frame_and_idempotence (s : SessionState) :
    (show_visualizations s).1.monthly_budget = s.monthly_budget ∧
    (show_visualizations s).1.profile_image = s.profile_image ∧
    (show_visualizations s).1.banner_image = s.banner_image ∧
    (show_visualizations s).1.expense_cols = s.expense_cols ∧
    (show_visualizations s).1.expenses.map (fun r => (r.category, r.amount, r.description)) =
      s.expenses.map (fun r => (r.category, r.amount, r.description)) ∧
    show_visualizations ((show_visualizations s).1) = show_visualizations s := by
  by_cases he : s.expenses.isEmpty
  · unfold show_visualizations
    simp [he]
  · by_cases hd : isDatetimeDtype s.expenses
    · unfold show_visualizations
      simp [he, hd]
    · have he' : (coerceDates s.expenses).isEmpty = false := by
        rw [isEmpty_coerceDates]
        simpa using he
      unfold show_visualizations
      simp only [he, if_false, hd, if_false, Bool.false_eq_true]
      refine ⟨trivial, trivial, trivial, trivial, map_triple_coerceDates s.expenses, ?_⟩
      simp [he', isDatetimeDtype_coerceDates]

/-- C7 (counterexample): two reachable ledgers with valid dates that do
not round-trip.  First, a record whose date is a *coerced* valid date —
the state every nonempty ledger reaches after the Visualizations page
runs — exports as text and re-imports as a text date, so the re-imported
record differs.  Second, a record with an empty-string `Description` (the
entry form's default) exports as an empty cell, which re-imports as a
missing value (`NaN`), not the empty string. -/
theorem roundtrip_counterexample :
    ((∀ r ∈ ([⟨.dat (some ⟨2025, 1, 1⟩), some "Food", (5 : ℚ), some "x"⟩] :
        List ExpenseRecord), (dateKey r.date).isSome = true) ∧
      ([⟨.dat (some ⟨2025, 1, 1⟩), some "Food", (5 : ℚ), some "x"⟩] :
        List ExpenseRecord) ≠ [] ∧
      (load_expenses_from_file initialState
          (exportCSV requiredCols
            [⟨.dat (some ⟨2025, 1, 1⟩), some "Food", (5 : ℚ), some "x"⟩])).1.expenses ≠
        [⟨.dat (some ⟨2025, 1, 1⟩), some "Food", (5 : ℚ), some "x"⟩]) ∧
    ((∀ r ∈ ([⟨.str "2025-01-01", some "Food", (5 : ℚ), some ""⟩] :
        List ExpenseRecord), (dateKey r.date).isSome = true) ∧
      ((load_expenses_from_file initialState
          (exportCSV requiredCols
            [⟨.str "2025-01-01", some "Food", (5 : ℚ), some ""⟩])).1.expenses.map
            (fun r => r.description) = [none]) ∧
      ([⟨.str "2025-01-01", some "Food", (5 : ℚ), some ""⟩] :
        List ExpenseRecord).map (fun r => r.description) = [some ""]) :=
  ⟨⟨by decide, by decide, by decide⟩, ⟨by decide, by decide, by decide⟩⟩

/-- C7 (amended): for every non-empty Ledger whose records carry textual,
parseable dates (the state produced by import, sample load, or form entry
before any datetime coercion) and whose `Category` and `Description`
cells are either missing or nonempty text, importing the exported CSV
reproduces the records exactly, in order, and reports success.  The
amount hypothesis only says each amount is a decimal fraction — true of
every value a float cell can hold — an artifact of embedding floats as
rationals, not a restriction of the claim. -/
theorem import_export_roundtrip (s : SessionState) (l : List ExpenseRecord)
    (_hne : l ≠ [])
    (hrec : ∀ r ∈ l, (∃ t, r.date = .str t ∧ (parseDate t).isSome = true) ∧
        (∃ j, j ≤ r.amount.den ∧ (r.amount * 10 ^ j).den = 1) ∧
        r.category ≠ some "" ∧ r.description ≠ some "") :
    (load_expenses_from_file s (exportCSV requiredCols l)).1.expenses = l ∧
    (load_expenses_from_file s (exportCSV requiredCols l)).2 = .success := by
  have hguard : ∀ c ∈ requiredCols, c ∈ (exportCSV requiredCols l).header :=
    fun c hc => hc
  constructor
  · simp only [load_expenses_from_file, dif_pos hguard]
    show parseRows (exportCSV requiredCols l) = l
    simp only [parseRows, exportCSV, List.map_map]
    conv_rhs => rw [← List.map_id l]
    apply List.map_congr_left
    intro r hr
    obtain ⟨⟨t, hdt, _hpt⟩, hden, hcat, hdesc⟩ := hrec r hr
    show rowToRecord requiredCols (recordToRowIn requiredCols r) = r
    rw [recordToRowIn_requiredCols]
    have h1 : rowToRecord requiredCols (recordToRow r) =
        { date := .str (dateCellToString r.date)
          category := if textCellToString r.category = "" then none
                      else some (textCellToString r.category)
          amount := (parseAmount (printAmount r.amount)).getD 0
          description := if textCellToString r.description = "" then none
                         else some (textCellToString r.description) } := rfl
    have hdate : DateCell.str (dateCellToString r.date) = r.date := by
      rw [hdt]; rfl
    have htext : ∀ (o : Option String), o ≠ some "" →
        (if textCellToString o = "" then none else some (textCellToString o)) = o := by
      intro o ho
      rcases hx : o with _ | c
      · simp [textCellToString]
      · have hc : c ≠ "" := by
          rintro rfl
          exact ho hx
        simp [textCellToString, hc]
    have hamt : (parseAmount (printAmount r.amount)).getD 0 = r.amount := by
      rw [parseAmount_printAmount r.amount hden]
      rfl
    rw [h1, hdate, htext r.category hcat, htext r.description hdesc, hamt]
  · simp [load_expenses_from_file, dif_pos hguard]

/-- Witness for C7 (amended): a two-record textual-date ledger (one
missing description) exports and re-imports to exactly itself. -/
theorem import_export_roundtrip_witness :
    (([⟨.str "2025-01-01", some "Food", (5 : ℚ), some "Breakfast"⟩,
       ⟨.str "2025-01-02", some "Transport", (7 : ℚ), none⟩] :
         List ExpenseRecord) ≠ []) ∧
    (∀ r ∈ ([⟨.str "2025-01-01", some "Food", (5 : ℚ), some "Breakfast"⟩,
             ⟨.str "2025-01-02", some "Transport", (7 : ℚ), none⟩] :
               List ExpenseRecord),
      (∃ t, r.date = .str t ∧ (parseDate t).isSome = true) ∧
      (∃ j, j ≤ r.amount.den ∧ (r.amount * 10 ^ j).den = 1) ∧
      r.category ≠ some "" ∧ r.description ≠ some "") ∧
    (load_expenses_from_file initialState (exportCSV requiredCols
        [⟨.str "2025-01-01", some "Food", (5 : ℚ), some "Breakfast"⟩,
         ⟨.str "2025-01-02", some "Transport", (7 : ℚ), none⟩])).1.expenses =
      [⟨.str "2025-01-01", some "Food", (5 : ℚ), some "Breakfast"⟩,
       ⟨.str "2025-01-02", some "Transport", (7 : ℚ), none⟩] := by
  have hrec : ∀ r ∈ ([⟨.str "2025-01-01", some "Food", (5 : ℚ), some "Breakfast"⟩,
      ⟨.str "2025-01-02", some "Transport", (7 : ℚ), none⟩] : List ExpenseRecord),
      (∃ t, r.date = .str t ∧ (parseDate t).isSome = true) ∧
      (∃ j, j ≤ r.amount.den ∧ (r.amount * 10 ^ j).den = 1) ∧
      r.category ≠ some "" ∧ r.description ≠ some "" := by
    intro r hr
    fin_cases hr
    · exact ⟨⟨"2025-01-01", rfl, by decide⟩, ⟨0, by norm_num, by norm_num⟩,
        by decide, by decide⟩
    · exact ⟨⟨"2025-01-02", rfl, by decide⟩, ⟨0, by norm_num, by norm_num⟩,
        by decide, by decide⟩
  exact ⟨by decide, hrec,
    (import_export_roundtrip initialState _ (by decide) hrec).1⟩

/-- C8 (counterexample): a CSV whose four required columns appear in a
permuted order passes the subset check (line 124) and replaces the
DataFrame wholesale, so the subsequent download writes the DataFrame's
own permuted header — not the stable column order the claim asserts. -/
theorem export_header_counterexample :
    (load_expenses_from_file initialState
        ⟨["Description", "Amount", "Category", "Date"],
         [["x", "5.00", "Food", "2025-01-01"]]⟩).2 = .success ∧
    SaveOutcome.headerOf
        (download_expenses (load_expenses_from_file initialState
          ⟨["Description", "Amount", "Category", "Date"],
           [["x", "5.00", "Food", "2025-01-01"]]⟩).1).2 =
      some ["Description", "Amount", "Category", "Date"] ∧
    ["Description", "Amount", "Category", "Date"] ≠ requiredCols :=
  ⟨by decide, by decide, by decide⟩

/-- C8 (amended): save and download never change the session state; on an
empty Ledger both warn (and do not throw — they are total functions
returning the warning outcome); on a non-empty Ledger both always
succeed, writing `df.columns` as the header row; and for every session
whose DataFrame columns are the canonical schema — fresh, reset,
sample-loaded and canonical-header-imported states — the written CSV has
the stable header `Date, Category, Amount, Description` first, followed
by one serialized row per record in ledger order. -/
theorem export_contract (s : SessionState) :
    (save_expenses_to_file s).1 = s ∧ (download_expenses s).1 = s ∧
    (s.expenses = [] →
      (save_expenses_to_file s).2 = .warnedEmpty ∧
      (download_expenses s).2 = .warnedEmpty) ∧
    (s.expenses ≠ [] →
      SaveOutcome.headerOf (save_expenses_to_file s).2 = some s.expense_cols ∧
      SaveOutcome.headerOf (download_expenses s).2 = some s.expense_cols) ∧
    (s.expense_cols = requiredCols → s.expenses ≠ [] →
      (save_expenses_to_file s).2 =
        .wrote ⟨requiredCols, s.expenses.map recordToRow⟩ ∧
      (download_expenses s).2 =
        .wrote ⟨requiredCols, s.expenses.map recordToRow⟩) := by
  by_cases he : s.expenses = []
  · simp [save_expenses_to_file, download_expenses, he]
  · have he' : s.expenses.isEmpty = false := by
      simpa [List.isEmpty_iff] using he
    have hfn : recordToRowIn requiredCols = recordToRow :=
      funext recordToRowIn_requiredCols
    refine ⟨?_, ?_, fun h => absurd h he, fun _ => ⟨?_, ?_⟩, fun hcols _ => ⟨?_, ?_⟩⟩ <;>
      simp [save_expenses_to_file, download_expenses, he', SaveOutcome.headerOf,
        exportCSV, *]

/-- Witness for C8 (amended): the empty initial session warns on save; the
sample-loaded session (canonical columns) downloads the three-row CSV
with the stable header. -/
theorem export_contract_witness :
    (initialState.expenses = [] ∧
      (save_expenses_to_file initialState).2 = SaveOutcome.warnedEmpty) ∧
    ((load_sample_data initialState).expense_cols = requiredCols ∧
      (load_sample_data initialState).expenses ≠ [] ∧
      (download_expenses (load_sample_data initialState)).2 =
        SaveOutcome.wrote ⟨requiredCols,
          (load_sample_data initialState).expenses.map recordToRow⟩) :=
  ⟨⟨rfl, ((export_contract initialState).2.2.1 rfl).1⟩,
   ⟨rfl, by decide,
    ((export_contract (load_sample_data initialState)).2.2.2.2 rfl (by decide)).2⟩⟩

/-- C9: evaluation of `check_internet` on every probe outcome.  The claim
fails on the code: a read timeout — the server accepts the connection but
exceeds the 3-second timeout — raises `requests.ReadTimeout`, which is
*not* a `requests.ConnectionError` and escapes the `try/except`,
aborting the script run, while the other failure modes are contained as
booleans. -/
theorem probe_containment_evaluation :
    check_internet ProbeOutcome.readTimedOut = .error RequestExc.readTimeout ∧
    check_internet ProbeOutcome.responded = .ok true ∧
    check_internet ProbeOutcome.connectionFailed = .ok false ∧
    check_internet ProbeOutcome.connectTimedOut = .ok false :=
  ⟨rfl, rfl, rfl, rfl⟩

/-- C10: Reset replaces the ledger with the empty four-column table (no
rows, canonical columns) and changes nothing else — the monthly budget
and both images keep their values. -/
theorem reset_frame_condition (s : SessionState) :
    (reset_data s).expenses = [] ∧
    (reset_data s).expense_cols = requiredCols ∧
    (reset_data s).monthly_budget = s.monthly_budget ∧
    (reset_data s).profile_image = s.profile_image ∧
    (reset_data s).banner_image = s.banner_image :=
  ⟨rfl, rfl, rfl, rfl, rfl⟩

end ExpenseTracker
